import Mathlib

/-!
# Personal security dashboard: scoring, recommendations and the evaluation store

A shallow embedding of `src/backend/server.js`:

* `calculateSecurityScore` (lines 81-91), including the binary64 arithmetic of
  `Math.round((score / maxScore) * 100)`;
* `generateRecommendations` (lines 94-138);
* the `GET /api/evaluations` handler (lines 231-264);
* `sanitizeInput` (lines 72-78), the `POST /api/evaluate` handler (lines 161-228)
  and the `GET /api/evaluations/:id` handler (lines 267-287).

An answers object is the list of its own enumerable entries in `Object.keys`
order; a well-formed object has pairwise distinct keys. A file of the data
directory is represented by the record whose JSON text it holds; `JSON.parse` is
applied where the handlers read it.
-/

namespace Dashboard

/-! ## JavaScript values and numbers -/

/-- A value of the parsed request body, as `JSON.parse` reads it: a string; `null`;
`nonFinite`, a number literal beyond the binary64 range such as `1e400`, read as
Infinity or -Infinity; `other`, a finite number or a boolean; an array; an object
with its entries. The program compares answer values with string literals only,
through `===` and `!==`. -/
inductive JsValue where
  | str (s : String)
  | null
  | nonFinite
  | other
  | arr (items : List JsValue)
  | obj (entries : List (String × JsValue))
  deriving Repr

mutual
/-- Decides the equality of two values, constructor by constructor. -/
def JsValue.decEq : (a b : JsValue) → Decidable (a = b)
  | .str s, .str t =>
    if h : s = t then isTrue (by rw [h]) else isFalse (fun heq => h (JsValue.str.inj heq))
  | .str _, .null => isFalse nofun
  | .str _, .nonFinite => isFalse nofun
  | .str _, .other => isFalse nofun
  | .str _, .arr _ => isFalse nofun
  | .str _, .obj _ => isFalse nofun
  | .null, .str _ => isFalse nofun
  | .null, .null => isTrue rfl
  | .null, .nonFinite => isFalse nofun
  | .null, .other => isFalse nofun
  | .null, .arr _ => isFalse nofun
  | .null, .obj _ => isFalse nofun
  | .nonFinite, .str _ => isFalse nofun
  | .nonFinite, .null => isFalse nofun
  | .nonFinite, .nonFinite => isTrue rfl
  | .nonFinite, .other => isFalse nofun
  | .nonFinite, .arr _ => isFalse nofun
  | .nonFinite, .obj _ => isFalse nofun
  | .other, .str _ => isFalse nofun
  | .other, .null => isFalse nofun
  | .other, .nonFinite => isFalse nofun
  | .other, .other => isTrue rfl
  | .other, .arr _ => isFalse nofun
  | .other, .obj _ => isFalse nofun
  | .arr _, .str _ => isFalse nofun
  | .arr _, .null => isFalse nofun
  | .arr _, .nonFinite => isFalse nofun
  | .arr _, .other => isFalse nofun
  | .arr xs, .arr ys =>
    match JsValue.decEqList xs ys with
    | isTrue h => isTrue (by rw [h])
    | isFalse h => isFalse (fun heq => h (JsValue.arr.inj heq))
  | .arr _, .obj _ => isFalse nofun
  | .obj _, .str _ => isFalse nofun
  | .obj _, .null => isFalse nofun
  | .obj _, .nonFinite => isFalse nofun
  | .obj _, .other => isFalse nofun
  | .obj _, .arr _ => isFalse nofun
  | .obj xs, .obj ys =>
    match JsValue.decEqEntries xs ys with
    | isTrue h => isTrue (by rw [h])
    | isFalse h => isFalse (fun heq => h (JsValue.obj.inj heq))
/-- Decides the equality of two arrays of values. -/
def JsValue.decEqList : (xs ys : List JsValue) → Decidable (xs = ys)
  | [], [] => isTrue rfl
  | [], _ :: _ => isFalse nofun
  | _ :: _, [] => isFalse nofun
  | x :: xs, y :: ys =>
    match JsValue.decEq x y, JsValue.decEqList xs ys with
    | isTrue h, isTrue hs => isTrue (by rw [h, hs])
    | isFalse h, _ => isFalse (fun heq => h (List.cons.inj heq).1)
    | _, isFalse hs => isFalse (fun heq => hs (List.cons.inj heq).2)
/-- Decides the equality of the entries of two objects. -/
def JsValue.decEqEntries : (xs ys : List (String × JsValue)) → Decidable (xs = ys)
  | [], [] => isTrue rfl
  | [], _ :: _ => isFalse nofun
  | _ :: _, [] => isFalse nofun
  | (k, x) :: xs, (l, y) :: ys =>
    if hk : k = l then
      match JsValue.decEq x y, JsValue.decEqEntries xs ys with
      | isTrue h, isTrue hs => isTrue (by rw [hk, h, hs])
      | isFalse h, _ => isFalse (fun heq => h (Prod.mk.inj (List.cons.inj heq).1).2)
      | _, isFalse hs => isFalse (fun heq => hs (List.cons.inj heq).2)
    else isFalse (fun heq => hk (Prod.mk.inj (List.cons.inj heq).1).1)
end

instance : DecidableEq JsValue := JsValue.decEq

/-- An answers object: its own enumerable entries, in `Object.keys` order. -/
abbrev Answers := List (String × JsValue)

/-- The result of `Object.keys(answers)`. -/
def objectKeys (answers : Answers) : List String := answers.map Prod.fst

/-- The result of `Object.values(answers)`. -/
def objectValues (answers : Answers) : List JsValue := answers.map Prod.snd

/-- Property access `answers.key`: `none` stands for `undefined`. -/
def getProp (answers : Answers) (key : String) : Option JsValue := answers.lookup key

mutual
/-- The value `JSON.parse(JSON.stringify(value))`: `JSON.stringify` writes Infinity
and -Infinity as `null`; every other value is read back as it was. -/
def JsValue.roundTrip : JsValue → JsValue
  | .str s => .str s
  | .null => .null
  | .nonFinite => .null
  | .other => .other
  | .arr items => .arr (JsValue.roundTripList items)
  | .obj entries => .obj (JsValue.roundTripEntries entries)
/-- The round trip of the items of an array. -/
def JsValue.roundTripList : List JsValue → List JsValue
  | [] => []
  | item :: items => JsValue.roundTrip item :: JsValue.roundTripList items
/-- The round trip of the entries of an object. -/
def JsValue.roundTripEntries : List (String × JsValue) → List (String × JsValue)
  | [] => []
  | (key, value) :: entries => (key, JsValue.roundTrip value) :: JsValue.roundTripEntries entries
end

mutual
/-- Whether a value holds no non-finite number, at any depth. -/
def JsValue.finite : JsValue → Bool
  | .nonFinite => false
  | .arr items => JsValue.finiteList items
  | .obj entries => JsValue.finiteEntries entries
  | _ => true
/-- Whether the items of an array hold no non-finite number. -/
def JsValue.finiteList : List JsValue → Bool
  | [] => true
  | item :: items => JsValue.finite item && JsValue.finiteList items
/-- Whether the entries of an object hold no non-finite number. -/
def JsValue.finiteEntries : List (String × JsValue) → Bool
  | [] => true
  | (_, value) :: entries => JsValue.finite value && JsValue.finiteEntries entries
end

/-- The JavaScript numbers this program can produce: NaN, +Infinity, or a finite
non-negative binary64 value, written `mant * 2 ^ exp`. -/
inductive JsNumber where
  | nan
  | inf
  | fin (mant : Nat) (exp : Int)
  deriving DecidableEq, Repr

/-- Floor of the base-2 logarithm, by halving (`fuel` bounds the number of halvings). -/
def ilog2Aux : Nat → Nat → Nat
  | 0, _ => 0
  | fuel + 1, n => if n < 2 then 0 else ilog2Aux fuel (n / 2) + 1

/-- Floor of the base-2 logarithm of `n` (0 for `n = 0`). -/
def ilog2 (n : Nat) : Nat := ilog2Aux n n

/-- Whether `2 ^ t ≤ p / q`, for `q > 0`. -/
def atLeastPow2 (p q : Nat) (t : Int) : Bool :=
  if 0 ≤ t then decide (q * 2 ^ t.toNat ≤ p) else decide (q ≤ p * 2 ^ (-t).toNat)

/-- The binade of the positive rational `p / q`: the `t` with `2 ^ t ≤ p / q < 2 ^ (t + 1)`. -/
def binade (p q : Nat) : Int :=
  let t : Int := (ilog2 p : Int) - (ilog2 q : Int)
  if atLeastPow2 p q t then t else t - 1

/-- IEEE 754 binary64 rounding (round to nearest, ties to even) of the exact
non-negative rational `p / q`, `q > 0`: the 53-bit significand `m` and the
exponent `e` with `m * 2 ^ e` nearest to `p / q`. The exponent range is not
bounded here; the quotients and products below lie between `2 ^ (-53)` and
`100` as long as `score` and `maxScore` are below `2 ^ 53`, far inside the
binary64 range. -/
def roundToDouble (p q : Nat) : JsNumber :=
  if p = 0 then .fin 0 0
  else
    let e : Int := binade p q - 52
    let num := if 0 ≤ e then p else p * 2 ^ (-e).toNat
    let den := if 0 ≤ e then q * 2 ^ e.toNat else q
    let m := num / den
    let r := num % den
    if 2 * r < den then .fin m e
    else if den < 2 * r then .fin (m + 1) e
    else if m % 2 = 0 then .fin m e
    else .fin (m + 1) e

/-- The JavaScript quotient `a / b` of two non-negative integers (exactly
representable numbers): `0 / 0` is NaN, `a / 0` is Infinity for `a > 0`. -/
def jsDiv (a b : Nat) : JsNumber :=
  if b = 0 then (if a = 0 then .nan else .inf) else roundToDouble a b

/-- The JavaScript product `x * k` of a number with a non-negative integer. -/
def jsMulNat : JsNumber → Nat → JsNumber
  | .nan, _ => .nan
  | .inf, k => if k = 0 then .nan else .inf
  | .fin m e, k =>
    if 0 ≤ e then roundToDouble (m * k * 2 ^ e.toNat) 1
    else roundToDouble (m * k) (2 ^ (-e).toNat)

/-- The function `Math.round`: the nearest integer, ties towards +Infinity, that is
`floor (x + 1/2)` computed exactly; NaN and Infinity are returned unchanged. A
finite result is always `fin r 0`, the integer `r`. -/
def mathRound : JsNumber → JsNumber
  | .nan => .nan
  | .inf => .inf
  | .fin m e =>
    if 0 ≤ e then .fin (m * 2 ^ e.toNat) 0
    else .fin ((2 * m + 2 ^ (-e).toNat) / 2 ^ ((-e).toNat + 1)) 0

/-! ## Scoring (server.js 81-91) -/

/-- The body of the `forEach` callback: the running `score` after one answer. -/
def addAnswer (score : Nat) (answer : JsValue) : Nat :=
  if answer = .str "si" ∨ answer = .str "siempre" then score + 10
  else if answer = .str "a-veces" then score + 5
  else score

/-- The expression `Math.round((score / maxScore) * 100)`. -/
def percentage (score maxScore : Nat) : JsNumber :=
  mathRound (jsMulNat (jsDiv score maxScore) 100)

/-- The function `calculateSecurityScore(answers)`. -/
def calculateSecurityScore (answers : Answers) : JsNumber :=
  let maxScore := (objectKeys answers).length * 10
  let score := (objectValues answers).foldl addAnswer 0
  percentage score maxScore

/-- The contribution rule of the specification: 10 for `si` or `siempre`, 5 for
`a-veces`, 0 for any other value. -/
def contribution : JsValue → Nat
  | .str s => if s = "si" ∨ s = "siempre" then 10 else if s = "a-veces" then 5 else 0
  | _ => 0

/-- The sum `S` of the contributions of all entries. -/
def contributionSum (answers : Answers) : Nat := (answers.map fun entry => contribution entry.2).sum

/-- Round-half-up of the exact rational `p / q`: `floor (p / q + 1/2)`. -/
def roundHalfUp (p q : Nat) : Nat := (2 * p + q) / (2 * q)

/-- A valid AnswerSet: exactly the five keys `password`, `twoFactor`, `updates`,
`publicWifi`, `backup`, each holding one of its enumerated values. -/
def ValidAnswerSet (a : Answers) : Prop :=
  (objectKeys a).Nodup ∧ a.length = 5 ∧
  getProp a "password" ∈ [some (JsValue.str "si"), some (JsValue.str "no")] ∧
  getProp a "twoFactor" ∈ [some (JsValue.str "si"), some (JsValue.str "no")] ∧
  getProp a "updates" ∈
    [some (JsValue.str "siempre"), some (JsValue.str "a-veces"), some (JsValue.str "nunca")] ∧
  getProp a "publicWifi" ∈ [some (JsValue.str "si"), some (JsValue.str "no")] ∧
  getProp a "backup" ∈ [some (JsValue.str "si"), some (JsValue.str "no")]

instance (a : Answers) : Decidable (ValidAnswerSet a) := by
  unfold ValidAnswerSet; infer_instance

/-- Builds the five-field answers object `{password, twoFactor, updates, publicWifi, backup}`. -/
def mkAnswers (password twoFactor updates publicWifi backup : String) : Answers :=
  [("password", .str password), ("twoFactor", .str twoFactor), ("updates", .str updates),
   ("publicWifi", .str publicWifi), ("backup", .str backup)]

/-! ## Recommendations (server.js 94-138) -/

/-- A recommendation record `{title, description, priority}`. -/
structure Recommendation where
  title : String
  description : String
  priority : String
  deriving DecidableEq, Repr

/-- The function `generateRecommendations(answers)`: five independent `if`
statements, each pushing one record onto `recommendations`. -/
def generateRecommendations (answers : Answers) : List Recommendation :=
  let recommendations : List Recommendation := []
  let recommendations :=
    if getProp answers "password" ≠ some (.str "si") then
      recommendations ++ [{
        title := "Contraseñas Débiles"
        description := "Usa contraseñas únicas y fuertes para cada cuenta."
        priority := "alta" }]
    else recommendations
  let recommendations :=
    if getProp answers "twoFactor" ≠ some (.str "si") then
      recommendations ++ [{
        title := "Autenticación de Dos Factores"
        description := "Activa 2FA en todas tus cuentas importantes."
        priority := "alta" }]
    else recommendations
  let recommendations :=
    if getProp answers "updates" ≠ some (.str "siempre") then
      recommendations ++ [{
        title := "Actualizaciones Pendientes"
        description := "Mantén tu sistema y aplicaciones siempre actualizadas."
        priority := "media" }]
    else recommendations
  let recommendations :=
    if getProp answers "publicWifi" = some (.str "si") then
      recommendations ++ [{
        title := "Redes WiFi Públicas"
        description := "Evita WiFi público o usa VPN para proteger tus datos."
        priority := "media" }]
    else recommendations
  let recommendations :=
    if getProp answers "backup" ≠ some (.str "si") then
      recommendations ++ [{
        title := "Copias de Seguridad"
        description := "Realiza backups regulares de tu información importante."
        priority := "media" }]
    else recommendations
  recommendations

/-- Rule 1 output, "Weak Passwords". -/
def weakPasswords : Recommendation :=
  ⟨"Contraseñas Débiles", "Usa contraseñas únicas y fuertes para cada cuenta.", "alta"⟩

/-- Rule 2 output, "Two-Factor Authentication". -/
def twoFactorAuth : Recommendation :=
  ⟨"Autenticación de Dos Factores", "Activa 2FA en todas tus cuentas importantes.", "alta"⟩

/-- Rule 3 output, "Pending Updates". -/
def pendingUpdates : Recommendation :=
  ⟨"Actualizaciones Pendientes", "Mantén tu sistema y aplicaciones siempre actualizadas.", "media"⟩

/-- Rule 4 output, "Public WiFi Networks". -/
def publicWifiNetworks : Recommendation :=
  ⟨"Redes WiFi Públicas", "Evita WiFi público o usa VPN para proteger tus datos.", "media"⟩

/-- Rule 5 output, "Backups". -/
def backups : Recommendation :=
  ⟨"Copias de Seguridad", "Realiza backups regulares de tu información importante.", "media"⟩

/-- The rule table of the specification, in evaluation order: a condition on the
answers and the recommendation emitted when it holds. -/
def recommendationRules : List ((Answers → Bool) × Recommendation) :=
  [ (fun a => decide (getProp a "password" ≠ some (.str "si")), weakPasswords),
    (fun a => decide (getProp a "twoFactor" ≠ some (.str "si")), twoFactorAuth),
    (fun a => decide (getProp a "updates" ≠ some (.str "siempre")), pendingUpdates),
    (fun a => decide (getProp a "publicWifi" = some (.str "si")), publicWifiNetworks),
    (fun a => decide (getProp a "backup" ≠ some (.str "si")), backups) ]

/-- The sub-sequence of the rule outputs whose condition holds, in rule order. -/
def firedRules (a : Answers) : List Recommendation :=
  (recommendationRules.filter fun rule => rule.1 a).map Prod.snd

/-! ## The evaluation store and its listing (server.js 231-264) -/

/-- An evaluation record as the create flow builds it. The `timestamp` field is the
ISO-8601 string `new Date().toISOString()`; it is represented by the epoch
milliseconds that `new Date(timestamp)` recovers from it. -/
structure Evaluation where
  id : String
  timestamp : Nat
  name : String
  email : String
  score : JsNumber
  recommendations : List Recommendation
  answers : Answers
  deriving DecidableEq, Repr

/-- The projection `{id, timestamp, name, score}` pushed by the listing. -/
structure EvaluationSummary where
  id : String
  timestamp : Nat
  name : String
  score : JsNumber
  deriving DecidableEq, Repr

/-- The content of a file of the data directory: `json evaluation` is the text
`JSON.stringify(evaluation, null, 2)` of a record with a finite score, as the create
flow writes it; `jsonNull` is the JSON text `null`, which parses but is not a record;
`corrupt` is a text on which `JSON.parse` throws a `SyntaxError`. Objects that lack
fields of a record, or hold a `timestamp` that is not a date, are not represented:
on them the comparator of the listing returns NaN and the order `sort` produces is
left to the engine. -/
inductive FileContent where
  | json (evaluation : Evaluation)
  | jsonNull
  | corrupt
  deriving DecidableEq, Repr

/-- The record `JSON.parse` reads from the text `JSON.stringify(evaluation, null, 2)`:
strings, the timestamp and a finite score are read back as they were, and so are
the recommendations (records of strings); the values of `answers` go through
`JsValue.roundTrip`. -/
def jsonParse (evaluation : Evaluation) : Evaluation :=
  { evaluation with answers := JsValue.roundTripEntries evaluation.answers }

/-- The data directory: its files, name and content, in `fs.readdir` order. -/
abbrev DataDir := List (String × FileContent)

/-- The response of a handler: `res.json` with `success: true` and the data, or
an error status with its message. -/
inductive Response (α : Type) where
  | ok (data : α)
  | fail (status : Nat) (message : String)
  deriving DecidableEq, Repr

/-- The response of `GET /api/evaluations/:id`: `{success: true, data}` with the
record read, `{success: true, data: null}` when the file holds `null`, or an error
status with its message. -/
inductive ReadResponse where
  | ok (data : Evaluation)
  | okNull
  | fail (status : Nat) (message : String)
  deriving DecidableEq, Repr

/-- The test `file.startsWith('evaluation_') && file.endsWith('.json')`. -/
def isEvaluationFile (file : String) : Bool :=
  "evaluation_".toList.isPrefixOf file.toList && ".json".toList.isSuffixOf file.toList

/-- The summary pushed for one parsed record. -/
def summaryOf (evaluation : Evaluation) : EvaluationSummary :=
  { id := evaluation.id, timestamp := evaluation.timestamp,
    name := evaluation.name, score := evaluation.score }

/-- The `for (const file of files)` loop: the summaries pushed, in directory
order, or the first exception thrown: by `JSON.parse` at a corrupt evaluation
file, or by `evaluation.id` at one that holds `null`. -/
def readSummaries : DataDir → Except String (List EvaluationSummary)
  | [] => .ok []
  | (file, content) :: files =>
    if isEvaluationFile file then
      match content with
      | .json stored =>
        let evaluation := jsonParse stored
        match readSummaries files with
        | .ok evaluations => .ok (summaryOf evaluation :: evaluations)
        | .error message => .error message
      | .jsonNull => .error "Cannot read properties of null (reading 'id')"
      | .corrupt => .error "Unexpected token"
    else readSummaries files

/-- The comparator `(a, b) => new Date(b.timestamp) - new Date(a.timestamp)`. -/
def compareByDate (a b : EvaluationSummary) : Int := (b.timestamp : Int) - (a.timestamp : Int)

/-- The method `Array.prototype.sort(compareFn)`: a stable sort, so for a consistent
comparator its result is the one of insertion sort, where `a` stays before `b`
when `compareFn(a, b) ≤ 0`. -/
def arraySort (compareFn : EvaluationSummary → EvaluationSummary → Int)
    (evaluations : List EvaluationSummary) : List EvaluationSummary :=
  evaluations.insertionSort fun a b => compareFn a b ≤ 0

/-- The handler of `GET /api/evaluations`. -/
def listEvaluations (dir : DataDir) : Response (List EvaluationSummary) :=
  match readSummaries dir with
  | .ok evaluations => .ok (arraySort compareByDate evaluations)
  | .error _ => .fail 500 "Error al obtener evaluaciones"

/-! ## The create flow and the read by id (server.js 72-78, 161-228, 267-287) -/

/-- White space and line terminators, as `String.prototype.trim` strips them. -/
def isJsWhiteSpace (c : Char) : Bool :=
  decide (c.toNat ∈ [0x09, 0x0A, 0x0B, 0x0C, 0x0D, 0x20, 0xA0, 0x1680, 0x2028, 0x2029,
    0x202F, 0x205F, 0x3000, 0xFEFF]) || (decide (0x2000 ≤ c.toNat) && decide (c.toNat ≤ 0x200A))

/-- The characters of `input.substring(0, units)`, where lengths count UTF-16 code
units: a character beyond the Basic Multilingual Plane takes two. When the cut
falls inside such a character JavaScript keeps its first half, a lone surrogate,
which is no character; it is left out here. -/
def takeUnits : Nat → List Char → List Char
  | _, [] => []
  | units, c :: cs =>
    let width := if c.toNat < 0x10000 then 1 else 2
    if width ≤ units then c :: takeUnits (units - width) cs else []

/-- The function `sanitizeInput(input)` on a string:
`input.replace(/[<>]/g, '').trim().substring(0, 500)`. -/
def sanitizeInput (input : String) : String :=
  let replaced := input.toList.filter fun c => c != '<' && c != '>'
  let trimmed := (replaced.dropWhile isJsWhiteSpace).rdropWhile isJsWhiteSpace
  String.mk (takeUnits 500 trimmed)

/-- One entry of `errors.array()`: the path of the rejected field and the message. -/
structure ValidationError where
  path : String
  msg : String
  deriving DecidableEq, Repr

/-- The body of a `POST /api/evaluate` request as the handler sees it. The checks
`isLength` and `isEmail` and the sanitizers `trim`, `escape` and `normalizeEmail`
belong to express-validator, outside the repository: `name` and `email` are
`req.body.name` and `req.body.email` as the sanitizers left them, and
`identityErrors` are the errors the `name` and `email` chains reported (both fields
are strings here; an array under `name` or `email` is not represented). `answers` is
`none` when `req.body.answers` is missing or not an object. -/
structure CreateRequest where
  name : String
  email : String
  identityErrors : List ValidationError
  answers : Option Answers
  deriving DecidableEq, Repr

/-- Whether the string form `toString(value)` that express-validator hands to the
validator is one of the `allowed` words, for words that are not empty and hold no
comma (the answer words of this program). A string is its own form; the form of
an array joins those of its items with commas, so only a one-item array can have
the form of a word, the one of its item; the forms of `null` and of the empty
array are empty, and those of numbers, booleans and objects (`5`, `true`,
`Infinity`, `[object Object]`) are no answer word. -/
def stringFormIn (allowed : List String) : JsValue → Bool
  | .str s => allowed.contains s
  | .arr [item] => stringFormIn allowed item
  | _ => false

/-- The validator `isIn(allowed)` on one field of `answers`, as express-validator
runs a standard validator: on an array it checks every item, so the empty array
passes; on any other value it checks the value itself; a missing field
(`undefined`, string form empty) fails. -/
def isIn (value : Option JsValue) (allowed : List String) : Bool :=
  match value with
  | some (.arr items) => items.all (stringFormIn allowed)
  | some v => stringFormIn allowed v
  | none => false

/-- One chain `body('answers.key').isIn(allowed)`: its errors. -/
def checkField (answers : Option Answers) (key : String) (allowed : List String) :
    List ValidationError :=
  if isIn (answers.bind fun a => getProp a key) allowed then []
  else [{ path := "answers." ++ key, msg := "Invalid value" }]

/-- The result `validationResult(req).array()` of the validation chains of
`POST /api/evaluate`, in chain order. -/
def validationResult (req : CreateRequest) : List ValidationError :=
  req.identityErrors ++
  (if req.answers.isSome then [] else [{ path := "answers", msg := "Invalid value" }]) ++
  checkField req.answers "password" ["si", "no"] ++
  checkField req.answers "twoFactor" ["si", "no"] ++
  checkField req.answers "updates" ["siempre", "a-veces", "nunca"] ++
  checkField req.answers "publicWifi" ["si", "no"] ++
  checkField req.answers "backup" ["si", "no"]

/-- The five recognised fields are present and hold enumerated values (further
keys are allowed). -/
def RecognisedFieldsValid (a : Answers) : Prop :=
  getProp a "password" ∈ [some (JsValue.str "si"), some (JsValue.str "no")] ∧
  getProp a "twoFactor" ∈ [some (JsValue.str "si"), some (JsValue.str "no")] ∧
  getProp a "updates" ∈
    [some (JsValue.str "siempre"), some (JsValue.str "a-veces"), some (JsValue.str "nunca")] ∧
  getProp a "publicWifi" ∈ [some (JsValue.str "si"), some (JsValue.str "no")] ∧
  getProp a "backup" ∈ [some (JsValue.str "si"), some (JsValue.str "no")]

instance (a : Answers) : Decidable (RecognisedFieldsValid a) := by
  unfold RecognisedFieldsValid; infer_instance

/-- The response of `POST /api/evaluate`: `{success: true, data: {id, score,
recommendations}}`, status 400 with `{errors}`, or status 500 with a message. -/
inductive CreateResponse where
  | created (id : String) (score : JsNumber) (recommendations : List Recommendation)
  | badRequest (errors : List ValidationError)
  | serverError (message : String)
  deriving DecidableEq, Repr

/-- The file name `evaluation_${id}.json` used by the create flow and by the read. -/
def evaluationFileName (id : String) : String := "evaluation_" ++ id ++ ".json"

/-- A successful `fs.writeFile(path.join(DATA_DIR, file), content)`: the file `file`
now holds `content`, whether it existed before or not; the other files are
untouched. The place of the written file in `fs.readdir` order is left to the
file system; here it comes first. -/
def writeFile (dir : DataDir) (file : String) (content : FileContent) : DataDir :=
  (file, content) :: dir.filter fun other => other.1 != file

/-- The content `fs.readFile` finds in the file `file` of the data directory; `none`
when the file does not exist. -/
def readFile (dir : DataDir) (file : String) : Option FileContent := dir.lookup file

/-- The record built at lines 183-200 from a validated request: `now` is the
reading `Date.now()`, `created` the instant of `new Date()`. -/
def buildEvaluation (now created : Nat) (req : CreateRequest) (answers : Answers) : Evaluation :=
  let name := sanitizeInput req.name
  let email := sanitizeInput req.email
  let score := calculateSecurityScore answers
  let recommendations := generateRecommendations answers
  { id := toString now, timestamp := created, name := name, email := email,
    score := score, recommendations := recommendations, answers := answers }

/-- The handler of `POST /api/evaluate`, from the directory before the request to
the response and the directory after it. `writeOk` tells whether `fs.writeFile`
succeeds; a failing write, like any other exception, ends in the `catch` branch
with status 500 (the directory is then taken as unchanged). The file name is that
of a decimal numeral, which `path.join(DATA_DIR, filename)` leaves as it is, and the
content written is the text `JSON.stringify(evaluation, null, 2)`. -/
def postEvaluate (dir : DataDir) (now created : Nat) (writeOk : Bool) (req : CreateRequest) :
    CreateResponse × DataDir :=
  let errors := validationResult req
  if errors ≠ [] then (.badRequest errors, dir)
  else
    match req.answers with
    | none => (.serverError "Error al procesar la evaluación", dir)
    | some answers =>
      let evaluation := buildEvaluation now created req answers
      let filename := evaluationFileName evaluation.id
      if writeOk then
        (.created evaluation.id evaluation.score evaluation.recommendations,
          writeFile dir filename (.json evaluation))
      else (.serverError "Error al procesar la evaluación", dir)

/-- The segments of a path, split at every `/`. -/
def pathSegments : List Char → List (List Char)
  | [] => [[]]
  | c :: cs =>
    if c = '/' then [] :: pathSegments cs
    else
      match pathSegments cs with
      | segment :: segments => (c :: segment) :: segments
      | [] => [[c]]

/-- One step of the normalisation done by `path.join`, on the segments walked so
far below the server directory `__dirname` (innermost first): empty segments and
`.` are dropped, `..` leaves the innermost one. `none`: the path has left
`__dirname`, whose own name the program does not fix. -/
def walkSegment (walked : Option (List (List Char))) (segment : List Char) :
    Option (List (List Char)) :=
  match walked with
  | none => none
  | some stack =>
    if segment = [] ∨ segment = ".".toList then some stack
    else if segment = "..".toList then
      match stack with
      | [] => none
      | _ :: outer => some outer
    else some (segment :: stack)

/-- The file of the data directory that `path.join(DATA_DIR, name)` addresses, where
`DATA_DIR` is `path.join(__dirname, 'data')`: the walk starts in `data` and must end
on a file directly inside it. `none` for every other path (the directory itself, a
path below a file, a path outside the data directory): the model holds no such
file, the data directory being flat. -/
def resolveDataFile (name : String) : Option String :=
  match (pathSegments name.toList).foldl walkSegment (some ["data".toList]) with
  | some [file, parent] => if parent = "data".toList then some (String.mk file) else none
  | _ => none

/-- The handler of `GET /api/evaluations/:id`: the record `JSON.parse` reads from the
file, or status 404 when the file cannot be read or its content does not
parse. -/
def getEvaluationById (dir : DataDir) (id : String) : ReadResponse :=
  match resolveDataFile (evaluationFileName id) with
  | none => .fail 404 "Evaluación no encontrada"
  | some file =>
    match readFile dir file with
    | some (.json stored) => .ok (jsonParse stored)
    | some .jsonNull => .okNull
    | some .corrupt => .fail 404 "Evaluación no encontrada"
    | none => .fail 404 "Evaluación no encontrada"

/-! ## Concrete inputs -/

/-- Scenario 1 of the specification. -/
def scenario1 : Answers := mkAnswers "si" "no" "siempre" "no" "si"

/-- Scenario 2 of the specification: the answers that trigger every rule. -/
def allWorst : Answers := mkAnswers "no" "no" "nunca" "si" "no"

/-- Every field at its positive-branch value. -/
def allPositive : Answers := mkAnswers "si" "si" "siempre" "si" "si"

/-- A request body that passes the validation chain of `POST /api/evaluate` (the
five recognised keys hold enumerated values) and carries fifteen further keys:
twenty entries, eleven `si`, one `a-veces`, eight `no`. -/
def twentyAnswers : Answers :=
  mkAnswers "si" "si" "a-veces" "si" "si" ++
  [("q06", .str "si"), ("q07", .str "si"), ("q08", .str "si"), ("q09", .str "si"),
   ("q10", .str "si"), ("q11", .str "si"), ("q12", .str "si"), ("q13", .str "no"),
   ("q14", .str "no"), ("q15", .str "no"), ("q16", .str "no"), ("q17", .str "no"),
   ("q18", .str "no"), ("q19", .str "no"), ("q20", .str "no")]

/-- The all-positive AnswerSet with one further entry under an unrecognised key. -/
def withUnknownKey : Answers := allPositive ++ [("nickname", .str "no")]

/-- Scenario 1 with its entries in another order. -/
def scenario1Reordered : Answers :=
  [("backup", .str "si"), ("publicWifi", .str "no"), ("password", .str "si"),
   ("updates", .str "siempre"), ("twoFactor", .str "no")]

/-- The files the listing reads: those whose name passes `isEvaluationFile`. -/
def evaluationFiles (dir : DataDir) : DataDir := dir.filter fun file => isEvaluationFile file.1

/-- A record as the create flow writes it for scenario 1, with the given id and
creation instant. -/
def sampleEvaluation (id : String) (timestamp : Nat) : Evaluation :=
  { id := id, timestamp := timestamp, name := "Ana", email := "ana@example.com",
    score := calculateSecurityScore scenario1,
    recommendations := generateRecommendations scenario1, answers := scenario1 }

/-- A data directory holding three evaluations saved at instants T1 < T2 < T3, and
a file that is not an evaluation file. -/
def threeFiles : DataDir :=
  [("evaluation_1000.json", .json (sampleEvaluation "1000" 1000)),
   (".gitkeep", .corrupt),
   ("evaluation_2000.json", .json (sampleEvaluation "2000" 2000)),
   ("evaluation_3000.json", .json (sampleEvaluation "3000" 3000))]

/-- The wording of the specification for the files the listing reads: the name
starts with `evaluation_` and ends with `.json`. -/
def HasEvaluationName (file : String) : Prop :=
  "evaluation_".toList <+: file.toList ∧ ".json".toList <:+ file.toList

instance (file : String) : Decidable (HasEvaluationName file) := by
  unfold HasEvaluationName; infer_instance

/-- The stored files whose name starts with `evaluation_` and ends with `.json`. -/
def storedEvaluationFiles (dir : DataDir) : DataDir :=
  dir.filter fun file => decide (HasEvaluationName file.1)

/-- A data directory whose only evaluation file holds the JSON text `null`. -/
def nullFileDir : DataDir := [("evaluation_1000.json", .jsonNull)]

/-- Answers whose `password` field is the array `['si']`, not an enumerated value. -/
def arrayPassword : Answers :=
  [("password", .arr [.str "si"]), ("twoFactor", .str "no"), ("updates", .str "siempre"),
   ("publicWifi", .str "no"), ("backup", .str "si")]

/-- A create request carrying `arrayPassword`. -/
def arrayPasswordRequest : CreateRequest :=
  { name := "Ana", email := "ana@example.com", identityErrors := [],
    answers := some arrayPassword }

/-- Scenario 1 with a further key `x` holding the number literal `1e400`, which
`JSON.parse` reads as Infinity. -/
def overflowAnswers : Answers := scenario1 ++ [("x", .nonFinite)]

/-- A create request carrying `overflowAnswers`. -/
def overflowRequest : CreateRequest :=
  { name := "Ana", email := "ana@example.com", identityErrors := [],
    answers := some overflowAnswers }

/-- A data directory with one well-formed evaluation file and one whose content
does not parse. -/
def oneCorruptFile : DataDir :=
  [("evaluation_1000.json", .json (sampleEvaluation "1000" 1000)),
   ("evaluation_2000.json", .corrupt)]

/-- A valid create request carrying scenario 1. -/
def anaRequest : CreateRequest :=
  { name := "Ana", email := "ana@example.com", identityErrors := [], answers := some scenario1 }

/-- A valid create request carrying the all-worst answers. -/
def benRequest : CreateRequest :=
  { name := "Ben", email := "ben@example.com", identityErrors := [], answers := some allWorst }

/-- Scenario 3 of the specification: the `backup` key is missing. -/
def missingBackup : Answers :=
  [("password", .str "si"), ("twoFactor", .str "no"), ("updates", .str "siempre"),
   ("publicWifi", .str "no")]

/-- A create request carrying the answers of scenario 3. -/
def missingBackupRequest : CreateRequest :=
  { name := "Ana", email := "ana@example.com", identityErrors := [],
    answers := some missingBackup }

/-! ## Lemmas on scoring -/

theorem addAnswer_eq (score : Nat) (answer : JsValue) :
    addAnswer score answer = score + contribution answer := by
  cases answer with
  | str s =>
    simp only [addAnswer, contribution, JsValue.str.injEq]
    split_ifs <;> rfl
  | _ => simp [addAnswer, contribution]

theorem foldl_addAnswer (values : List JsValue) (score : Nat) :
    values.foldl addAnswer score = score + (values.map contribution).sum := by
  induction values generalizing score with
  | nil => simp
  | cons v vs ih => simp [List.foldl_cons, ih, addAnswer_eq, Nat.add_assoc]

theorem calculateSecurityScore_eq (a : Answers) :
    calculateSecurityScore a = percentage (contributionSum a) (a.length * 10) := by
  simp [calculateSecurityScore, objectKeys, objectValues, contributionSum, foldl_addAnswer,
    List.map_map, Function.comp_def]

theorem contribution_cases (v : JsValue) :
    contribution v = 0 ∨ contribution v = 5 ∨ contribution v = 10 := by
  cases v with
  | str s => simp only [contribution]; split_ifs <;> simp
  | _ => simp [contribution]

theorem contributionSum_multiple (a : Answers) :
    ∃ k, k < 2 * a.length + 1 ∧ contributionSum a = 5 * k := by
  induction a with
  | nil => exact ⟨0, by simp, by simp [contributionSum]⟩
  | cons entry rest ih =>
    obtain ⟨k, hk, hsum⟩ := ih
    have hsum' : (List.map (fun entry => contribution entry.2) rest).sum = 5 * k := hsum
    rcases contribution_cases entry.2 with h | h | h
    · exact ⟨k, by simp; omega, by simp [contributionSum, h, hsum']⟩
    · exact ⟨k + 1, by simp; omega, by simp [contributionSum, h, hsum']; omega⟩
    · exact ⟨k + 2, by simp; omega, by simp [contributionSum, h, hsum']; omega⟩

set_option maxRecDepth 1000000 in
theorem percentage_small :
    ∀ n < 20, ∀ k < 2 * n + 1, 0 < n →
      percentage (5 * k) (n * 10) = .fin (roundHalfUp (100 * (5 * k)) (10 * n)) 0 := by
  decide

theorem percentage_five (k : Nat) (hk : k < 11) :
    percentage (5 * k) (5 * 10) = .fin (2 * (5 * k)) 0 := by
  rw [percentage_small 5 (by decide) k (by omega) (by decide)]
  simp only [roundHalfUp, JsNumber.fin.injEq, and_true]
  omega

theorem validAnswerSet_length (a : Answers) (h : ValidAnswerSet a) : a.length = 5 := h.2.1

/-! ## Scoring: formula and range -/

/-- C1, counterexample: on the twenty-entry object `twentyAnswers` (S = 115, n = 20)
the exact quotient 100 * 115 / 200 = 57.5 rounds half-up to 58, but the code
computes `115 / 200` and then `* 100` in binary64, obtaining 57.49999999999999,
and `Math.round` returns 57. -/
theorem score_formula_fails_at_twenty :
    twentyAnswers ≠ [] ∧ contributionSum twentyAnswers = 115 ∧ twentyAnswers.length = 20 ∧
    roundHalfUp (100 * contributionSum twentyAnswers) (10 * twentyAnswers.length) = 58 ∧
    calculateSecurityScore twentyAnswers = .fin 57 0 := by
  decide

/-- C1, amended: for every non-empty answers object with fewer than twenty entries,
`calculateSecurityScore` returns round-half-up of 100 * S / (10 * n), where S is the
sum of the contributions (10 for `si` or `siempre`, 5 for `a-veces`, 0 otherwise);
and for every valid five-field AnswerSet the result is exactly 2 * S. -/
theorem score_formula_below_twenty (a : Answers) (hne : a ≠ []) (hlt : a.length < 20) :
    calculateSecurityScore a =
      .fin (roundHalfUp (100 * contributionSum a) (10 * a.length)) 0 ∧
    (ValidAnswerSet a → calculateSecurityScore a = .fin (2 * contributionSum a) 0) := by
  obtain ⟨k, hk, hsum⟩ := contributionSum_multiple a
  have hpos : 0 < a.length := List.length_pos.mpr hne
  refine ⟨?_, fun hvalid => ?_⟩
  · rw [calculateSecurityScore_eq, hsum]
    exact percentage_small a.length hlt k hk hpos
  · have hlen : a.length = 5 := validAnswerSet_length a hvalid
    rw [calculateSecurityScore_eq, hsum, hlen]
    exact percentage_five k (by omega)

/-- Witness for C1: a valid five-field AnswerSet with the partial-credit answer. -/
theorem score_formula_below_twenty_witness :
    mkAnswers "si" "no" "a-veces" "no" "si" ≠ [] ∧
    (mkAnswers "si" "no" "a-veces" "no" "si").length < 20 ∧
    ValidAnswerSet (mkAnswers "si" "no" "a-veces" "no" "si") ∧
    calculateSecurityScore (mkAnswers "si" "no" "a-veces" "no" "si") =
      .fin (2 * contributionSum (mkAnswers "si" "no" "a-veces" "no" "si")) 0 :=
  ⟨by decide, by decide, by decide,
    (score_formula_below_twenty (mkAnswers "si" "no" "a-veces" "no" "si")
      (by decide) (by decide)).2 (by decide)⟩

/-- C3: for every valid AnswerSet, `calculateSecurityScore` returns an integer `s`
with 0 ≤ s ≤ 100. -/
theorem score_in_range (a : Answers) (hvalid : ValidAnswerSet a) :
    ∃ s : Nat, calculateSecurityScore a = .fin s 0 ∧ 0 ≤ s ∧ s ≤ 100 := by
  obtain ⟨k, hk, hsum⟩ := contributionSum_multiple a
  have hlen : a.length = 5 := validAnswerSet_length a hvalid
  refine ⟨2 * (5 * k), ?_, Nat.zero_le _, by omega⟩
  rw [calculateSecurityScore_eq, hsum, hlen]
  exact percentage_five k (by omega)

/-- Witness for C3, at the all-positive AnswerSet. -/
theorem score_in_range_witness :
    ValidAnswerSet allPositive ∧
    ∃ s : Nat, calculateSecurityScore allPositive = .fin s 0 ∧ 0 ≤ s ∧ s ≤ 100 :=
  ⟨by decide, score_in_range allPositive (by decide)⟩

/-! ## Recommendations: the rule table -/

/-- C2: `generateRecommendations` returns exactly the sub-sequence, in rule order,
of the five rule outputs whose condition holds (password ≠ si: Weak Passwords, alta;
twoFactor ≠ si: Two-Factor Authentication, alta; updates ≠ siempre: Pending Updates,
media; publicWifi = si: Public WiFi Networks, media; backup ≠ si: Backups, media);
the list has at most five entries and pairwise distinct titles. This holds for
every answers object, in particular for every valid AnswerSet. -/
theorem generateRecommendations_rules (a : Answers) :
    generateRecommendations a = firedRules a ∧
    (generateRecommendations a).length ≤ 5 ∧
    ((generateRecommendations a).map Recommendation.title).Nodup := by
  have heq : generateRecommendations a = firedRules a := by
    by_cases h1 : getProp a "password" = some (.str "si") <;>
    by_cases h2 : getProp a "twoFactor" = some (.str "si") <;>
    by_cases h3 : getProp a "updates" = some (.str "siempre") <;>
    by_cases h4 : getProp a "publicWifi" = some (.str "si") <;>
    by_cases h5 : getProp a "backup" = some (.str "si") <;>
    simp [generateRecommendations, firedRules, recommendationRules, h1, h2, h3, h4, h5,
      weakPasswords, twoFactorAuth, pendingUpdates, publicWifiNetworks, backups]
  have hsub : (firedRules a).Sublist (recommendationRules.map Prod.snd) :=
    List.Sublist.map _ (List.filter_sublist _)
  refine ⟨heq, ?_, ?_⟩
  · rw [heq]
    exact hsub.length_le
  · rw [heq]
    exact List.Nodup.sublist (List.Sublist.map _ hsub) (by decide)

/-! ## The concrete scenarios -/

/-- C4: on scenario 1, `{password: si, twoFactor: no, updates: siempre, publicWifi: no,
backup: si}`, the code returns the score 60 (the publicWifi answer `no` contributes
0 points, not 10) and exactly one recommendation, Two-Factor Authentication with
priority alta. -/
theorem scenario1_evaluation :
    calculateSecurityScore scenario1 = .fin 60 0 ∧
    generateRecommendations scenario1 = [twoFactorAuth] ∧
    twoFactorAuth.priority = "alta" := by
  decide

/-- C5: on the all-worst AnswerSet `{password: no, twoFactor: no, updates: nunca,
publicWifi: si, backup: no}` the code returns the score 20 (the publicWifi answer `si`
contributes 10 points) and the five recommendations in rule order. -/
theorem allWorst_evaluation :
    calculateSecurityScore allWorst = .fin 20 0 ∧
    generateRecommendations allWorst =
      [weakPasswords, twoFactorAuth, pendingUpdates, publicWifiNetworks, backups] := by
  decide

/-- C6: on the AnswerSet with every field at its positive-branch value,
`{password: si, twoFactor: si, updates: siempre, publicWifi: si, backup: si}`, the
score is 100 and the only recommendation is the one of the publicWifi rule. -/
theorem allPositive_evaluation :
    calculateSecurityScore allPositive = .fin 100 0 ∧
    generateRecommendations allPositive = [publicWifiNetworks] := by
  decide

/-! ## Unknown keys, key order, the empty object -/

theorem lookup_eq_some_iff_mem (l : Answers) (hkeys : (objectKeys l).Nodup) (key : String)
    (v : JsValue) : l.lookup key = some v ↔ (key, v) ∈ l := by
  induction l with
  | nil => simp
  | cons entry rest ih =>
    obtain ⟨k, w⟩ := entry
    have hnd : k ∉ objectKeys rest ∧ (objectKeys rest).Nodup := by
      simpa [objectKeys] using hkeys
    by_cases hk : key = k
    · subst hk
      have hnot : (key, v) ∉ rest := fun hmem =>
        hnd.1 (List.mem_map.mpr ⟨(key, v), hmem, rfl⟩)
      simp only [List.lookup_cons_self, Option.some.injEq, List.mem_cons, Prod.mk.injEq,
        true_and, hnot, or_false]
      exact eq_comm
    · have hbeq : (key == k) = false := by simpa using hk
      simp only [List.lookup_cons, hbeq, List.mem_cons, Prod.mk.injEq, hk, false_and, false_or]
      exact ih hnd.2

theorem getProp_perm (a b : Answers) (hperm : a.Perm b) (hkeys : (objectKeys a).Nodup)
    (key : String) : getProp a key = getProp b key := by
  have hkeys' : (objectKeys b).Nodup := (hperm.map Prod.fst).nodup_iff.mp hkeys
  apply Option.ext
  intro v
  simp only [getProp, Option.mem_def]
  rw [lookup_eq_some_iff_mem a hkeys, lookup_eq_some_iff_mem b hkeys']
  exact hperm.mem_iff

theorem generateRecommendations_congr (a b : Answers)
    (h : ∀ key, key ∈ ["password", "twoFactor", "updates", "publicWifi", "backup"] →
      getProp a key = getProp b key) :
    generateRecommendations a = generateRecommendations b := by
  simp only [generateRecommendations, h "password" (by decide), h "twoFactor" (by decide),
    h "updates" (by decide), h "publicWifi" (by decide), h "backup" (by decide)]

theorem contributionSum_perm (a b : Answers) (hperm : a.Perm b) :
    contributionSum a = contributionSum b :=
  (hperm.map _).sum_eq

theorem roundToDouble_fin (p q : Nat) : ∃ m e, roundToDouble p q = .fin m e := by
  unfold roundToDouble
  by_cases hp : p = 0
  · exact ⟨0, 0, by simp [hp]⟩
  · simp only [hp, if_false]
    repeat' split
    all_goals exact ⟨_, _, rfl⟩

theorem mathRound_fin (m : Nat) (e : Int) : mathRound (.fin m e) ≠ .nan := by
  simp only [mathRound]
  split <;> simp

theorem percentage_ne_nan (score maxScore : Nat) (hmax : maxScore ≠ 0) :
    percentage score maxScore ≠ .nan := by
  unfold percentage jsDiv
  rw [if_neg hmax]
  obtain ⟨m, e, hq⟩ := roundToDouble_fin score maxScore
  rw [hq]
  simp only [jsMulNat]
  split
  · obtain ⟨m', e', hr⟩ := roundToDouble_fin (m * 100 * 2 ^ e.toNat) 1
    rw [hr]
    exact mathRound_fin m' e'
  · obtain ⟨m', e', hr⟩ := roundToDouble_fin (m * 100) (2 ^ (-e).toNat)
    rw [hr]
    exact mathRound_fin m' e'

/-- C7, counterexample: adding the unknown key `nickname: 'no'` to the all-positive
AnswerSet changes the score from 100 to 83 (the entry counts in `maxScore`). -/
theorem unknown_key_changes_score :
    ValidAnswerSet allPositive ∧
    "nickname" ∉ ["password", "twoFactor", "updates", "publicWifi", "backup"] ∧
    withUnknownKey = allPositive ++ [("nickname", .str "no")] ∧
    calculateSecurityScore allPositive = .fin 100 0 ∧
    calculateSecurityScore withUnknownKey = .fin 83 0 := by
  decide

/-- C7, amended: for every valid five-field AnswerSet `a` and every answers object
`b` (with distinct keys) made of the entries of `a` and further entries `extra`,
`generateRecommendations b = generateRecommendations a`, while
`calculateSecurityScore b` counts every entry of `b`: it is
`Math.round((score / maxScore) * 100)` for `score = S(a) + S(extra)` and
`maxScore = 10 * (5 + number of extra entries)`. -/
theorem unknown_keys_recommendations (a extra b : Answers) (hvalid : ValidAnswerSet a)
    (hperm : b.Perm (a ++ extra)) (hkeys : (objectKeys b).Nodup) :
    generateRecommendations b = generateRecommendations a ∧
    calculateSecurityScore b =
      percentage (contributionSum a + contributionSum extra) ((5 + extra.length) * 10) := by
  constructor
  · apply generateRecommendations_congr
    intro key hkey
    rw [getProp_perm b (a ++ extra) hperm hkeys key]
    have hsome : (getProp a key).isSome = true := by
      obtain ⟨_, _, h1, h2, h3, h4, h5⟩ := hvalid
      simp only [List.mem_cons, List.mem_singleton, List.not_mem_nil, or_false] at hkey h1 h2 h3 h4 h5
      rcases hkey with rfl | rfl | rfl | rfl | rfl
      · rcases h1 with h | h <;> simp [h]
      · rcases h2 with h | h <;> simp [h]
      · rcases h3 with h | h | h <;> simp [h]
      · rcases h4 with h | h <;> simp [h]
      · rcases h5 with h | h <;> simp [h]
    obtain ⟨v, hv⟩ := Option.isSome_iff_exists.mp hsome
    unfold getProp at hv ⊢
    simp [List.lookup_append, hv]
  · rw [calculateSecurityScore_eq, contributionSum_perm b (a ++ extra) hperm, hperm.length_eq]
    have hlen : a.length = 5 := validAnswerSet_length a hvalid
    simp [contributionSum, hlen]

/-- Witness for C7, at the all-positive AnswerSet with the key `nickname` added. -/
theorem unknown_keys_recommendations_witness :
    ValidAnswerSet allPositive ∧
    withUnknownKey.Perm (allPositive ++ [("nickname", .str "no")]) ∧
    (objectKeys withUnknownKey).Nodup ∧
    generateRecommendations withUnknownKey = generateRecommendations allPositive ∧
    calculateSecurityScore withUnknownKey =
      percentage (contributionSum allPositive + contributionSum [("nickname", .str "no")])
        ((5 + [("nickname", JsValue.str "no")].length) * 10) :=
  ⟨by decide, List.Perm.refl _, by decide,
    unknown_keys_recommendations allPositive [("nickname", .str "no")] withUnknownKey
      (by decide) (List.Perm.refl _) (by decide)⟩

/-- C8: order among keys is irrelevant. For every answers object with distinct keys
and every permutation of its entries, `calculateSecurityScore` returns the same
score and `generateRecommendations` the same list, in the same order. -/
theorem key_order_irrelevant (a b : Answers) (hkeys : (objectKeys a).Nodup)
    (hperm : a.Perm b) :
    calculateSecurityScore a = calculateSecurityScore b ∧
    generateRecommendations a = generateRecommendations b := by
  constructor
  · rw [calculateSecurityScore_eq, calculateSecurityScore_eq, contributionSum_perm a b hperm,
      hperm.length_eq]
  · exact generateRecommendations_congr a b fun key _ => getProp_perm a b hperm hkeys key

/-- Witness for C8: scenario 1 and a reordering of its entries. -/
theorem key_order_irrelevant_witness :
    (objectKeys scenario1).Nodup ∧ scenario1.Perm scenario1Reordered ∧
    calculateSecurityScore scenario1 = calculateSecurityScore scenario1Reordered ∧
    generateRecommendations scenario1 = generateRecommendations scenario1Reordered :=
  ⟨by decide, by decide, key_order_irrelevant scenario1 scenario1Reordered (by decide) (by decide)⟩

/-- C9, counterexample: for the empty answers object the result is not the score 0. -/
theorem empty_answers_not_zero : calculateSecurityScore [] ≠ .fin 0 0 := by
  decide

/-- C9, amended: `calculateSecurityScore` has no divide-by-zero guard. It returns NaN
(`Math.round(0 / 0 * 100)`) exactly when the answers object is empty, and for the
empty object in particular. -/
theorem score_nan_iff_empty (a : Answers) : calculateSecurityScore a = .nan ↔ a = [] := by
  constructor
  · intro h
    by_contra hne
    have hpos : 0 < a.length := List.length_pos.mpr hne
    rw [calculateSecurityScore_eq] at h
    exact percentage_ne_nan _ _ (by omega) h
  · rintro rfl
    decide

/-! ## The listing -/

theorem summaryOf_jsonParse (evaluation : Evaluation) :
    summaryOf (jsonParse evaluation) = summaryOf evaluation := rfl

theorem isEvaluationFile_iff (file : String) :
    isEvaluationFile file = true ↔ HasEvaluationName file := by
  simp [isEvaluationFile, HasEvaluationName]

theorem evaluationFiles_eq (dir : DataDir) : evaluationFiles dir = storedEvaluationFiles dir := by
  unfold evaluationFiles storedEvaluationFiles
  congr 1
  funext file
  by_cases h : HasEvaluationName file.1
  · simp [h, (isEvaluationFile_iff file.1).mpr h]
  · have hfalse : isEvaluationFile file.1 = false := by
      cases hfile : isEvaluationFile file.1 with
      | false => rfl
      | true => exact absurd ((isEvaluationFile_iff file.1).mp hfile) h
    simp [h, hfalse]

theorem readSummaries_of_parsed (dir : DataDir) (records : List Evaluation)
    (hparse : (evaluationFiles dir).map Prod.snd = records.map FileContent.json) :
    readSummaries dir = .ok (records.map summaryOf) := by
  induction dir generalizing records with
  | nil =>
    have hnil : records = [] := by simpa [evaluationFiles] using hparse.symm
    simp [readSummaries, hnil]
  | cons entry files ih =>
    obtain ⟨file, content⟩ := entry
    by_cases hfile : isEvaluationFile file = true
    · have hcons : content :: (evaluationFiles files).map Prod.snd =
          records.map FileContent.json := by
        simpa [evaluationFiles, List.filter_cons, hfile] using hparse
      cases records with
      | nil => simp at hcons
      | cons evaluation rest =>
        simp only [List.map_cons, List.cons.injEq] at hcons
        obtain ⟨hcontent, hrest⟩ := hcons
        simp [readSummaries, hfile, hcontent, ih rest hrest, summaryOf_jsonParse]
    · have hrest : (evaluationFiles files).map Prod.snd = records.map FileContent.json := by
        simpa [evaluationFiles, List.filter_cons, hfile] using hparse
      simp [readSummaries, hfile, ih records hrest]

theorem arraySort_compareByDate_sorted (evaluations : List EvaluationSummary) :
    (arraySort compareByDate evaluations).Sorted fun a b => b.timestamp ≤ a.timestamp := by
  have htotal : IsTotal EvaluationSummary fun a b => compareByDate a b ≤ 0 :=
    ⟨fun a b => by simp only [compareByDate]; omega⟩
  have htrans : IsTrans EvaluationSummary fun a b => compareByDate a b ≤ 0 :=
    ⟨fun a b c => by simp only [compareByDate]; omega⟩
  have hsorted := List.sorted_insertionSort (fun a b => compareByDate a b ≤ 0) evaluations
  refine List.Pairwise.imp ?_ hsorted
  intro a b hab
  simp only [compareByDate] at hab
  omega

/-- C10, counterexample: the only evaluation file of `nullFileDir` holds the JSON
text `null`, which parses, yet the listing returns no sequence of summaries: reading
`evaluation.id` throws and the handler answers status 500. -/
theorem null_file_fails_listing :
    nullFileDir = [("evaluation_1000.json", .jsonNull)] ∧
    (∀ file ∈ storedEvaluationFiles nullFileDir, file.2 ≠ .corrupt) ∧
    listEvaluations nullFileDir = .fail 500 "Error al obtener evaluaciones" := by
  decide

/-- C10, amended: for every store state in which every evaluation file (name starting
with `evaluation_` and ending with `.json`) parses to an evaluation record (`records`
lists them, one per such file), the listing succeeds and returns exactly one summary
per such file, with the `id`, `timestamp`, `name` and `score` of its record, ordered
by timestamp descending; when there is no such file it returns the empty
sequence. -/
theorem listEvaluations_sorted (dir : DataDir) (records : List Evaluation)
    (hparse : (storedEvaluationFiles dir).map Prod.snd = records.map FileContent.json) :
    ∃ summaries, listEvaluations dir = .ok summaries ∧
      summaries.Perm (records.map fun record =>
        ({ id := record.id, timestamp := record.timestamp, name := record.name,
           score := record.score } : EvaluationSummary)) ∧
      (summaries.Sorted fun a b => b.timestamp ≤ a.timestamp) ∧
      (storedEvaluationFiles dir = [] → summaries = []) := by
  rw [← evaluationFiles_eq] at hparse
  refine ⟨arraySort compareByDate (records.map summaryOf), ?_, ?_, ?_, ?_⟩
  · simp [listEvaluations, readSummaries_of_parsed dir records hparse]
  · exact List.perm_insertionSort _ _
  · exact arraySort_compareByDate_sorted _
  · intro hempty
    rw [← evaluationFiles_eq] at hempty
    have hnil : records = [] := by simpa [hempty] using hparse.symm
    simp [hnil, arraySort]

/-- Witness for C10: three evaluations saved at T1 = 1000 < T2 = 2000 < T3 = 3000 are
listed in the order T3, T2, T1. -/
theorem listEvaluations_sorted_witness :
    (storedEvaluationFiles threeFiles).map Prod.snd =
      [sampleEvaluation "1000" 1000, sampleEvaluation "2000" 2000,
        sampleEvaluation "3000" 3000].map FileContent.json ∧
    listEvaluations threeFiles =
      .ok [{ id := "3000", timestamp := 3000, name := "Ana", score := .fin 60 0 },
        { id := "2000", timestamp := 2000, name := "Ana", score := .fin 60 0 },
        { id := "1000", timestamp := 1000, name := "Ana", score := .fin 60 0 }] ∧
    ∃ summaries, listEvaluations threeFiles = .ok summaries ∧
      summaries.Perm ([sampleEvaluation "1000" 1000, sampleEvaluation "2000" 2000,
        sampleEvaluation "3000" 3000].map fun record =>
        ({ id := record.id, timestamp := record.timestamp, name := record.name,
           score := record.score } : EvaluationSummary)) ∧
      (summaries.Sorted fun a b => b.timestamp ≤ a.timestamp) ∧
      (storedEvaluationFiles threeFiles = [] → summaries = []) :=
  ⟨by decide, by decide,
    listEvaluations_sorted threeFiles
      [sampleEvaluation "1000" 1000, sampleEvaluation "2000" 2000, sampleEvaluation "3000" 3000]
      (by decide)⟩

/-! ## The listing with a corrupt file -/

theorem readSummaries_corrupt (dir : DataDir)
    (hcorrupt : ∃ file ∈ dir, isEvaluationFile file.1 = true ∧ file.2 = .corrupt) :
    ∃ message, readSummaries dir = .error message := by
  induction dir with
  | nil => simp at hcorrupt
  | cons entry files ih =>
    obtain ⟨file, content⟩ := entry
    by_cases hfile : isEvaluationFile file = true
    · cases content with
      | corrupt => exact ⟨"Unexpected token", by simp [readSummaries, hfile]⟩
      | jsonNull =>
        exact ⟨"Cannot read properties of null (reading 'id')", by simp [readSummaries, hfile]⟩
      | json evaluation =>
        have hrest : ∃ f ∈ files, isEvaluationFile f.1 = true ∧ f.2 = .corrupt := by
          obtain ⟨f, hmem, hname, hcontent⟩ := hcorrupt
          rcases List.mem_cons.mp hmem with rfl | hmem
          · simp at hcontent
          · exact ⟨f, hmem, hname, hcontent⟩
        obtain ⟨message, hmessage⟩ := ih hrest
        exact ⟨message, by simp [readSummaries, hfile, hmessage]⟩
    · have hrest : ∃ f ∈ files, isEvaluationFile f.1 = true ∧ f.2 = .corrupt := by
        obtain ⟨f, hmem, hname, hcontent⟩ := hcorrupt
        rcases List.mem_cons.mp hmem with rfl | hmem
        · exact absurd hname hfile
        · exact ⟨f, hmem, hname, hcontent⟩
      obtain ⟨message, hmessage⟩ := ih hrest
      exact ⟨message, by simp [readSummaries, hfile, hmessage]⟩

/-- C11, counterexample: with one well-formed and one corrupt evaluation file the
listing does not return the summary of the well-formed record; it fails with
status 500. -/
theorem corrupt_file_not_skipped :
    oneCorruptFile =
      [("evaluation_1000.json", .json (sampleEvaluation "1000" 1000)),
       ("evaluation_2000.json", .corrupt)] ∧
    listEvaluations oneCorruptFile ≠ .ok [summaryOf (sampleEvaluation "1000" 1000)] ∧
    listEvaluations oneCorruptFile = .fail 500 "Error al obtener evaluaciones" := by
  decide

/-- C11, amended: for every store state containing at least one evaluation file whose
content fails to parse as JSON, whatever the other files hold, the listing fails as a
whole: it answers status 500 with the message 'Error al obtener evaluaciones' and
returns no summary. -/
theorem corrupt_file_fails_listing (dir : DataDir)
    (hcorrupt : ∃ file ∈ dir, isEvaluationFile file.1 = true ∧ file.2 = .corrupt) :
    listEvaluations dir = .fail 500 "Error al obtener evaluaciones" := by
  obtain ⟨message, hmessage⟩ := readSummaries_corrupt dir hcorrupt
  simp [listEvaluations, hmessage]

/-- Witness for C11, at the directory with one corrupt evaluation file. -/
theorem corrupt_file_fails_listing_witness :
    (∃ file ∈ oneCorruptFile, isEvaluationFile file.1 = true ∧ file.2 = .corrupt) ∧
    listEvaluations oneCorruptFile = .fail 500 "Error al obtener evaluaciones" :=
  ⟨⟨("evaluation_2000.json", .corrupt), by decide, by decide, rfl⟩,
    corrupt_file_fails_listing oneCorruptFile
      ⟨("evaluation_2000.json", .corrupt), by decide, by decide, rfl⟩⟩

/-! ## Priorities of the recommendations -/

theorem generateRecommendations_sublist (a : Answers) :
    (generateRecommendations a).Sublist
      [weakPasswords, twoFactorAuth, pendingUpdates, publicWifiNetworks, backups] := by
  have heq : generateRecommendations a = firedRules a := by
    by_cases h1 : getProp a "password" = some (.str "si") <;>
    by_cases h2 : getProp a "twoFactor" = some (.str "si") <;>
    by_cases h3 : getProp a "updates" = some (.str "siempre") <;>
    by_cases h4 : getProp a "publicWifi" = some (.str "si") <;>
    by_cases h5 : getProp a "backup" = some (.str "si") <;>
    simp [generateRecommendations, firedRules, recommendationRules, h1, h2, h3, h4, h5,
      weakPasswords, twoFactorAuth, pendingUpdates, publicWifiNetworks, backups]
  have hall : recommendationRules.map Prod.snd =
      [weakPasswords, twoFactorAuth, pendingUpdates, publicWifiNetworks, backups] := rfl
  rw [heq, ← hall]
  exact List.Sublist.map _ (List.filter_sublist _)

/-- C16: for every answers object, in the list returned by `generateRecommendations`
no recommendation with priority 'media' comes before one with priority 'alta' (every
'alta' entry precedes every 'media' entry), and every entry has priority 'alta' or
'media'. -/
theorem priorities_grouped (a : Answers) :
    (generateRecommendations a).Pairwise
      (fun earlier later => ¬ (earlier.priority = "media" ∧ later.priority = "alta")) ∧
    ∀ r ∈ generateRecommendations a, r.priority = "alta" ∨ r.priority = "media" := by
  have hsub := generateRecommendations_sublist a
  refine ⟨List.Pairwise.sublist hsub (by decide), fun r hr => ?_⟩
  have hmem := hsub.subset hr
  have hall : ∀ x ∈ [weakPasswords, twoFactorAuth, pendingUpdates, publicWifiNetworks, backups],
      x.priority = "alta" ∨ x.priority = "media" := by decide
  exact hall r hmem

/-! ## The create flow -/

theorem isIn_isSome (value : Option JsValue) (allowed : List String)
    (h : isIn value allowed = true) : value.isSome = true := by
  cases value with
  | none => simp [isIn] at h
  | some v => rfl

theorem checkField_eq_nil (a : Answers) (key : String) (allowed : List String) :
    checkField (some a) key allowed = [] ↔ isIn (getProp a key) allowed = true := by
  simp only [checkField, Option.some_bind]
  split_ifs with h <;> simp [h]

theorem validationResult_present (req : CreateRequest) (a : Answers)
    (hvalid : validationResult req = []) (ha : req.answers = some a) :
    (getProp a "password").isSome = true := by
  simp only [validationResult, ha, List.append_eq_nil, checkField_eq_nil] at hvalid
  exact isIn_isSome _ _ hvalid.1.1.1.1.2

theorem validated_ne_nil (req : CreateRequest) (a : Answers)
    (hvalid : validationResult req = []) (ha : req.answers = some a) : a ≠ [] := by
  rintro rfl
  have hpresent := validationResult_present req [] hvalid ha
  simp [getProp] at hpresent

theorem readFile_writeFile (dir : DataDir) (file : String) (content : FileContent) :
    readFile (writeFile dir file content) file = some content := by
  simp [readFile, writeFile]

theorem writeFile_writeFile (dir : DataDir) (file : String) (first second : FileContent) :
    writeFile (writeFile dir file first) file second = writeFile dir file second := by
  simp [writeFile, List.filter_cons, List.filter_filter]

theorem postEvaluate_valid (dir : DataDir) (now created : Nat) (req : CreateRequest)
    (a : Answers) (hvalid : validationResult req = []) (ha : req.answers = some a) :
    postEvaluate dir now created true req =
      (.created (buildEvaluation now created req a).id (buildEvaluation now created req a).score
          (buildEvaluation now created req a).recommendations,
        writeFile dir (evaluationFileName (buildEvaluation now created req a).id)
          (.json (buildEvaluation now created req a))) := by
  simp [postEvaluate, hvalid, ha]

theorem postEvaluate_invalid (dir : DataDir) (now created : Nat) (writeOk : Bool)
    (req : CreateRequest) (hinvalid : validationResult req ≠ []) :
    postEvaluate dir now created writeOk req = (.badRequest (validationResult req), dir) := by
  simp [postEvaluate, hinvalid]

theorem percentage_fin (score maxScore : Nat) (hmax : maxScore ≠ 0) :
    ∃ s, percentage score maxScore = .fin s 0 := by
  have hround : ∀ m e, ∃ s, mathRound (.fin m e) = .fin s 0 := by
    intro m e
    simp only [mathRound]
    split <;> exact ⟨_, rfl⟩
  unfold percentage jsDiv
  rw [if_neg hmax]
  obtain ⟨m, e, hq⟩ := roundToDouble_fin score maxScore
  rw [hq]
  simp only [jsMulNat]
  split
  · obtain ⟨m', e', hr⟩ := roundToDouble_fin (m * 100 * 2 ^ e.toNat) 1
    rw [hr]
    exact hround m' e'
  · obtain ⟨m', e', hr⟩ := roundToDouble_fin (m * 100) (2 ^ (-e).toNat)
    rw [hr]
    exact hround m' e'

/-! ### The file name of a created record -/

theorem digitChar_ne_slash (d : Nat) (h : d < 10) : Nat.digitChar d ≠ '/' := by
  interval_cases d <;> decide

theorem toDigitsCore_no_slash (fuel n : Nat) (digits : List Char) (h : '/' ∉ digits) :
    '/' ∉ Nat.toDigitsCore 10 fuel n digits := by
  induction fuel generalizing n digits with
  | zero => simpa [Nat.toDigitsCore] using h
  | succ fuel ih =>
    have hcons : '/' ∉ Nat.digitChar (n % 10) :: digits := by
      simp only [List.mem_cons, not_or]
      exact ⟨fun heq => digitChar_ne_slash _ (Nat.mod_lt _ (by decide)) heq.symm, h⟩
    simp only [Nat.toDigitsCore]
    split
    · exact hcons
    · exact ih _ _ hcons

theorem toString_no_slash (n : Nat) : '/' ∉ (toString n).toList := by
  show '/' ∉ (Nat.repr n).toList
  simp only [Nat.repr, Nat.toDigits, List.asString, String.toList]
  exact toDigitsCore_no_slash _ _ _ (by simp)

theorem pathSegments_of_no_slash (path : List Char) (h : '/' ∉ path) :
    pathSegments path = [path] := by
  induction path with
  | nil => rfl
  | cons c cs ih =>
    simp only [List.mem_cons, not_or] at h
    have hc : c ≠ '/' := fun heq => h.1 heq.symm
    simp [pathSegments, hc, ih h.2]

theorem resolveDataFile_plain (name : String) (hslash : '/' ∉ name.toList)
    (hne : name.toList ≠ []) (hdot : name.toList ≠ ".".toList)
    (hdots : name.toList ≠ "..".toList) : resolveDataFile name = some name := by
  have h1 : name.data ≠ [] := hne
  have h2 : name.data ≠ ['.'] := hdot
  have h3 : name.data ≠ ['.', '.'] := hdots
  unfold resolveDataFile
  rw [pathSegments_of_no_slash _ hslash]
  simp [walkSegment, h1, h2, h3, String.toList]

theorem resolveDataFile_evaluationFileName (id : String) (h : '/' ∉ id.toList) :
    resolveDataFile (evaluationFileName id) = some (evaluationFileName id) := by
  have hlist : (evaluationFileName id).toList =
      'e' :: ("valuation_".toList ++ id.toList ++ ".json".toList) := by
    simp [evaluationFileName, String.toList]
  apply resolveDataFile_plain
  · rw [hlist]
    simp only [List.mem_cons, List.mem_append, not_or]
    exact ⟨by decide, ⟨by decide, h⟩, by decide⟩
  · rw [hlist]
    exact List.cons_ne_nil _ _
  · rw [hlist]
    intro heq
    exact absurd (List.cons.inj heq).1 (by decide)
  · rw [hlist]
    intro heq
    exact absurd (List.cons.inj heq).1 (by decide)

theorem getEvaluationById_writeFile (dir : DataDir) (id : String) (stored : Evaluation)
    (h : '/' ∉ id.toList) :
    getEvaluationById (writeFile dir (evaluationFileName id) (.json stored)) id =
      .ok (jsonParse stored) := by
  simp [getEvaluationById, resolveDataFile_evaluationFileName id h, readFile_writeFile]

/-! ### The JSON round trip -/

mutual
theorem roundTrip_of_finite : ∀ v : JsValue, v.finite = true → v.roundTrip = v
  | .str _, _ => rfl
  | .null, _ => rfl
  | .nonFinite, h => by simp [JsValue.finite] at h
  | .other, _ => rfl
  | .arr items, h => by
    simp only [JsValue.finite] at h
    simp [JsValue.roundTrip, roundTripList_of_finite items h]
  | .obj entries, h => by
    simp only [JsValue.finite] at h
    simp [JsValue.roundTrip, roundTripEntries_of_finite entries h]
theorem roundTripList_of_finite :
    ∀ items : List JsValue, JsValue.finiteList items = true → JsValue.roundTripList items = items
  | [], _ => rfl
  | item :: items, h => by
    simp only [JsValue.finiteList, Bool.and_eq_true] at h
    simp [JsValue.roundTripList, roundTrip_of_finite item h.1, roundTripList_of_finite items h.2]
theorem roundTripEntries_of_finite :
    ∀ entries : List (String × JsValue),
      JsValue.finiteEntries entries = true → JsValue.roundTripEntries entries = entries
  | [], _ => rfl
  | (key, value) :: entries, h => by
    simp only [JsValue.finiteEntries, Bool.and_eq_true] at h
    simp [JsValue.roundTripEntries, roundTrip_of_finite value h.1,
      roundTripEntries_of_finite entries h.2]
end

theorem jsonParse_of_finite (evaluation : Evaluation)
    (h : JsValue.finiteEntries evaluation.answers = true) : jsonParse evaluation = evaluation := by
  simp [jsonParse, roundTripEntries_of_finite _ h]

/-! ### Round trip, validation, invariant, collision -/

/-- C12, counterexample: a request that passes validation and carries the further key
`x: 1e400` (Infinity in memory). The record built by the create flow is written with
`x: null`, so the read by id returns a record that differs from it in `answers`. -/
theorem overflow_not_read_back :
    validationResult overflowRequest = [] ∧
    overflowRequest.answers = some (scenario1 ++ [("x", .nonFinite)]) ∧
    (buildEvaluation 1000 1000 overflowRequest overflowAnswers).id = "1000" ∧
    getEvaluationById (postEvaluate [] 1000 1000 true overflowRequest).2 "1000" ≠
      .ok (buildEvaluation 1000 1000 overflowRequest overflowAnswers) ∧
    getEvaluationById (postEvaluate [] 1000 1000 true overflowRequest).2 "1000" =
      .ok { buildEvaluation 1000 1000 overflowRequest overflowAnswers with
            answers := scenario1 ++ [("x", .null)] } := by
  decide

/-- C12, amended: round trip up to JSON. For every valid create request (its answers
are `a`), every store state and every clock reading, after the create flow has
written the record `e` it built to the file `evaluation_<e.id>.json`, the read by id
called with `e.id` succeeds and returns the record `JSON.parse` reads from that file:
it has the `id`, `timestamp`, `name`, `email`, `score` (a finite integer) and
`recommendations` of `e`, and the answers of `e` with every non-finite number
replaced by `null`; when the answers hold no non-finite number it equals `e` in all
seven fields. -/
theorem get_after_create (dir : DataDir) (now created : Nat) (req : CreateRequest)
    (a : Answers) (hvalid : validationResult req = []) (ha : req.answers = some a) :
    (postEvaluate dir now created true req).2 =
      writeFile dir (evaluationFileName (buildEvaluation now created req a).id)
        (.json (buildEvaluation now created req a)) ∧
    getEvaluationById (postEvaluate dir now created true req).2
      (buildEvaluation now created req a).id =
      .ok { buildEvaluation now created req a with answers := JsValue.roundTripEntries a } ∧
    (JsValue.finiteEntries a = true →
      getEvaluationById (postEvaluate dir now created true req).2
        (buildEvaluation now created req a).id = .ok (buildEvaluation now created req a)) ∧
    ∃ s, (buildEvaluation now created req a).score = .fin s 0 := by
  have hget : getEvaluationById (postEvaluate dir now created true req).2
      (buildEvaluation now created req a).id = .ok (jsonParse (buildEvaluation now created req a)) := by
    rw [postEvaluate_valid dir now created req a hvalid ha]
    exact getEvaluationById_writeFile dir _ _ (toString_no_slash now)
  refine ⟨?_, hget, fun hfinite => ?_, ?_⟩
  · rw [postEvaluate_valid dir now created req a hvalid ha]
  · rw [hget, jsonParse_of_finite _ hfinite]
  · have hne : a ≠ [] := validated_ne_nil req a hvalid ha
    have hpos : 0 < a.length := List.length_pos.mpr hne
    simp only [buildEvaluation]
    rw [calculateSecurityScore_eq]
    exact percentage_fin _ _ (by omega)

/-- Witness for C12: the request of Ana, created at reading 1000 in the directory
`threeFiles`, which already holds a file `evaluation_1000.json`. -/
theorem get_after_create_witness :
    validationResult anaRequest = [] ∧ anaRequest.answers = some scenario1 ∧
    JsValue.finiteEntries scenario1 = true ∧
    getEvaluationById (postEvaluate threeFiles 1000 1005 true anaRequest).2
      (buildEvaluation 1000 1005 anaRequest scenario1).id =
      .ok (buildEvaluation 1000 1005 anaRequest scenario1) :=
  ⟨by decide, rfl, by decide, (get_after_create threeFiles 1000 1005 anaRequest scenario1
    (by decide) rfl).2.2.1 (by decide)⟩

/-- C13, the code at the failing input: the `password` field holds the array `['si']`,
a value outside the enumerated set {`si`, `no`}, yet the validation chain reports no
error, the handler answers with a score (40) and recommendations and writes the file
`evaluation_4000.json`. A missing key, as in scenario 3, is rejected with status 400
and the store left as it was. -/
theorem array_answer_accepted :
    ¬ RecognisedFieldsValid arrayPassword ∧
    validationResult arrayPasswordRequest = [] ∧
    postEvaluate threeFiles 4000 4000 true arrayPasswordRequest =
      (.created "4000" (.fin 40 0) [weakPasswords, twoFactorAuth],
        writeFile threeFiles "evaluation_4000.json"
          (.json (buildEvaluation 4000 4000 arrayPasswordRequest arrayPassword))) ∧
    postEvaluate threeFiles 4000 4000 true missingBackupRequest =
      (.badRequest [{ path := "answers.backup", msg := "Invalid value" }], threeFiles) := by
  decide

/-- C14: evaluation record invariant. For every successful create request with
validated answers `a`, the record `r` persisted in `evaluation_<r.id>.json` satisfies
`r.answers = a`, `r.score = calculateSecurityScore a` and
`r.recommendations = generateRecommendations a`, and the response carries the id,
score and recommendations of `r`. -/
theorem created_record_invariant (dir : DataDir) (now created : Nat)
    (req : CreateRequest) (a : Answers) (hvalid : validationResult req = [])
    (ha : req.answers = some a) :
    ∃ r : Evaluation,
      readFile (postEvaluate dir now created true req).2 (evaluationFileName r.id) =
        some (.json r) ∧
      r.answers = a ∧ r.score = calculateSecurityScore a ∧
      r.recommendations = generateRecommendations a ∧
      (postEvaluate dir now created true req).1 =
        .created r.id (calculateSecurityScore a) (generateRecommendations a) := by
  refine ⟨buildEvaluation now created req a, ?_, rfl, rfl, rfl, ?_⟩
  · rw [postEvaluate_valid dir now created req a hvalid ha]
    exact readFile_writeFile _ _ _
  · rw [postEvaluate_valid dir now created req a hvalid ha]
    rfl

/-- Witness for C14: the request of Ben in the empty directory. -/
theorem created_record_invariant_witness :
    validationResult benRequest = [] ∧ benRequest.answers = some allWorst ∧
    ∃ r : Evaluation,
      readFile (postEvaluate [] 5000 5001 true benRequest).2 (evaluationFileName r.id) =
        some (.json r) ∧
      r.answers = allWorst ∧ r.score = calculateSecurityScore allWorst ∧
      r.recommendations = generateRecommendations allWorst ∧
      (postEvaluate [] 5000 5001 true benRequest).1 =
        .created r.id (calculateSecurityScore allWorst) (generateRecommendations allWorst) :=
  ⟨by decide, rfl, created_record_invariant [] 5000 5001 benRequest allWorst (by decide) rfl⟩

/-- C15: identifier collision. For every two successful create requests processed
one after the other with the same reading `now` of `Date.now()`, both records get
the same id and the same file name; the second write overwrites the first: the read
by that id returns the second record as `JSON.parse` reads it from the file (the
record itself when its answers hold no non-finite number), and the store is
the one the second request alone would have left, so the first record is no longer
in it. -/
theorem same_millisecond_overwrites (dir : DataDir) (now created1 created2 : Nat)
    (req1 req2 : CreateRequest) (a1 a2 : Answers)
    (hvalid1 : validationResult req1 = []) (ha1 : req1.answers = some a1)
    (hvalid2 : validationResult req2 = []) (ha2 : req2.answers = some a2) :
    (buildEvaluation now created1 req1 a1).id = (buildEvaluation now created2 req2 a2).id ∧
    evaluationFileName (buildEvaluation now created1 req1 a1).id =
      evaluationFileName (buildEvaluation now created2 req2 a2).id ∧
    getEvaluationById (postEvaluate dir now created1 true req1).2
      (buildEvaluation now created1 req1 a1).id =
      .ok (jsonParse (buildEvaluation now created1 req1 a1)) ∧
    (JsValue.finiteEntries a1 = true →
      getEvaluationById (postEvaluate dir now created1 true req1).2
        (buildEvaluation now created1 req1 a1).id = .ok (buildEvaluation now created1 req1 a1)) ∧
    getEvaluationById
      (postEvaluate (postEvaluate dir now created1 true req1).2 now created2 true req2).2
      (buildEvaluation now created1 req1 a1).id =
      .ok (jsonParse (buildEvaluation now created2 req2 a2)) ∧
    (JsValue.finiteEntries a2 = true →
      getEvaluationById
        (postEvaluate (postEvaluate dir now created1 true req1).2 now created2 true req2).2
        (buildEvaluation now created1 req1 a1).id = .ok (buildEvaluation now created2 req2 a2)) ∧
    (postEvaluate (postEvaluate dir now created1 true req1).2 now created2 true req2).2 =
      (postEvaluate dir now created2 true req2).2 := by
  have hid : (buildEvaluation now created1 req1 a1).id =
      (buildEvaluation now created2 req2 a2).id := rfl
  have hsecond : getEvaluationById
      (postEvaluate (postEvaluate dir now created1 true req1).2 now created2 true req2).2
      (buildEvaluation now created1 req1 a1).id =
      .ok (jsonParse (buildEvaluation now created2 req2 a2)) := by
    rw [postEvaluate_valid _ now created2 req2 a2 hvalid2 ha2, hid]
    exact getEvaluationById_writeFile _ _ _ (toString_no_slash now)
  have hfirst : getEvaluationById (postEvaluate dir now created1 true req1).2
      (buildEvaluation now created1 req1 a1).id =
      .ok (jsonParse (buildEvaluation now created1 req1 a1)) := by
    rw [postEvaluate_valid dir now created1 req1 a1 hvalid1 ha1]
    exact getEvaluationById_writeFile _ _ _ (toString_no_slash now)
  refine ⟨hid, by rw [hid], hfirst, fun hfinite => ?_, hsecond, fun hfinite => ?_, ?_⟩
  · rw [hfirst, jsonParse_of_finite _ hfinite]
  · rw [hsecond, jsonParse_of_finite _ hfinite]
  · rw [postEvaluate_valid _ now created2 req2 a2 hvalid2 ha2,
      postEvaluate_valid dir now created1 req1 a1 hvalid1 ha1,
      postEvaluate_valid dir now created2 req2 a2 hvalid2 ha2]
    simp only [hid]
    exact writeFile_writeFile _ _ _ _

/-- Witness for C15: Ana and then Ben, both created at the reading 1000. -/
theorem same_millisecond_overwrites_witness :
    validationResult anaRequest = [] ∧ validationResult benRequest = [] ∧
    getEvaluationById
      (postEvaluate (postEvaluate [] 1000 1000 true anaRequest).2 1000 1000 true benRequest).2
      (buildEvaluation 1000 1000 anaRequest scenario1).id =
      .ok (buildEvaluation 1000 1000 benRequest allWorst) ∧
    buildEvaluation 1000 1000 anaRequest scenario1 ≠ buildEvaluation 1000 1000 benRequest allWorst :=
  ⟨by decide, by decide,
    (same_millisecond_overwrites [] 1000 1000 1000 anaRequest benRequest scenario1 allWorst
      (by decide) rfl (by decide) rfl).2.2.2.2.2.1 (by decide),
    by decide⟩

end Dashboard
